import Mathlib

/-!
Shallow embedding of `src/atc_ble/parser.py` (BLE advertisement decoder for
sensors running ATC firmware) and proofs about it.

Bytes are modelled as `Nat` (each in `0..255` on real inputs), byte strings as
`List Nat`, Python strings as `List Char`.  Python exceptions are modelled with
an explicit `PStep` outcome (either a raised exception or a normal return), and
the mutable `ATCBluetoothDeviceData` object is threaded explicitly as a
`DeviceState`.  The AES-CCM primitive (`Cryptodome`) is an external library;
the decoder is parameterised over an oracle `AEADCall → CcmOutcome` recording
exactly the key, nonce, associated data, ciphertext, tag and tag length the
code hands to the primitive.
-/

/-- A Python exception kind relevant to this code. -/
inductive PyErr where
  | indexError
  | valueError
  | overflowError
  | structError
  deriving DecidableEq, Repr

/-- Outcome of running a piece of Python code: either an exception propagated
out, or a normal return value. -/
inductive PStep (α : Type) where
  | raised (e : PyErr)
  | normal (a : α)
  deriving DecidableEq, Repr

/-- Value of a hex digit character, as accepted by `bytes.fromhex`. -/
def hexDigitVal (c : Char) : Option Nat :=
  if ('0' ≤ c ∧ c ≤ '9') then some (c.toNat - '0'.toNat)
  else if ('a' ≤ c ∧ c ≤ 'f') then some (c.toNat - 'a'.toNat + 10)
  else if ('A' ≤ c ∧ c ≤ 'F') then some (c.toNat - 'A'.toNat + 10)
  else none

/-- Parse an even-length run of hex digits into bytes; `none` on a stray
character or odd length (`bytes.fromhex` raises `ValueError` then). -/
def hexPairs : List Char → Option (List Nat)
  | [] => some []
  | [_] => none
  | c₁ :: c₂ :: rest =>
    match hexDigitVal c₁, hexDigitVal c₂, hexPairs rest with
    | some h, some l, some bs => some ((16 * h + l) :: bs)
    | _, _, _ => none

/-- `bytes.fromhex`: ASCII spaces are skipped, anything else must be hex
digits in pairs, otherwise `ValueError` is raised. -/
def bytesFromHex (s : List Char) : PStep (List Nat) :=
  match hexPairs (s.filter (fun c => c ≠ ' ')) with
  | some bs => PStep.normal bs
  | none => PStep.raised PyErr.valueError

/-- The placeholder address the parser substitutes for a platform-opaque
identifier: `"00:00:00:00:00:00"`. -/
def zeroAddr : List Char := ("00:00:00:00:00:00").data

/-- Lines 85-90 of `parser.py`: sanitize `service_info.address` and convert it
to bytes.  Mirrors Python exactly: the guard is
`len(mac_readable) != 17 and mac_readable[2] != ":"` (short-circuit `and`, so
`mac_readable[2]` is only evaluated — and can raise `IndexError` — when the
length differs from 17), and only `":"` characters are removed before
`bytes.fromhex`. -/
def computeSourceMac (address : List Char) : PStep (List Nat) :=
  match
    (if address.length ≠ 17 then
      match address.get? 2 with
      | none => PStep.raised PyErr.indexError
      | some c => if c ≠ ':' then PStep.normal zeroAddr else PStep.normal address
     else PStep.normal address) with
  | PStep.raised e => PStep.raised e
  | PStep.normal mr => bytesFromHex (mr.filter (fun c => c ≠ ':'))

/-- An advertisement (`BluetoothServiceInfo`): the decoder reads only the
address, the local name and the service-data payloads. -/
structure ServiceInfo where
  name : List Char
  address : List Char
  service_data : List (List Nat)
  deriving DecidableEq, Repr

/-- The mutable session state of `ATCBluetoothDeviceData` (`__init__`,
lines 40-68 of `parser.py`).  The field `encrypted` models the attribute
`self.encrypted` that `_parse_atc` assigns (lines 171 and 205): it does not
exist on the object until first assigned, hence `Option Bool` with `none`
meaning "attribute absent".  Note it is distinct from the field
`is_encrypted` declared in `__init__`. -/
structure DeviceState where
  bindkey : Option (List Nat)
  is_encrypted : Bool
  mac_known : Bool
  bindkey_verified : Bool
  pending : Bool
  last_service_info : Option ServiceInfo
  encrypted : Option Bool
  deriving DecidableEq, Repr

/-- `ATCBluetoothDeviceData.__init__`: `mac_known` starts true except on
darwin; nothing else is set. -/
def initState (darwin : Bool) (bindkey : Option (List Nat)) : DeviceState :=
  { bindkey := bindkey
    is_encrypted := false
    mac_known := !darwin
    bindkey_verified := false
    pending := true
    last_service_info := none
    encrypted := none }

/-- The exact argument tuple handed to the AES-CCM primitive
(`AES.new(key, AES.MODE_CCM, nonce=nonce, mac_len=4)`, `cipher.update(aad)`,
`cipher.decrypt_and_verify(cipherpayload, token)`). -/
structure AEADCall where
  key : List Nat
  nonce : List Nat
  aad : List Nat
  ciphertext : List Nat
  tag : List Nat
  macLen : Nat
  deriving DecidableEq, Repr

/-- Possible behaviours of `decrypt_and_verify`: it raises `ValueError` when
tag verification fails, otherwise returns the plaintext; `retNone` models the
(library-impossible) `None` return the source code checks for defensively at
line 261. -/
inductive CcmOutcome where
  | valueError
  | retNone
  | ok (pt : List Nat)
  deriving DecidableEq, Repr

/-- Result of `_decrypt_atc`, labelled by the `return None` site taken
(the Python function returns `None` for all three failures; the labels are in
bijection with the return sites at lines 235, 240 and 260/267). -/
inductive DecryptResult where
  | missingKey
  | invalidKeyLength
  | decryptionFailed
  | ok (pt : List Nat)
  deriving DecidableEq, Repr

/-- Lines 242-251 of `parser.py`: the data handed to the AEAD primitive.
`nonce = atc_mac[::-1] + (len(data)+3).to_bytes(1) + b"\x16\x1a\x18" + data[:1]`,
`aad = b"\x11"`, ciphertext `data[1:-4]`, tag `data[-4:]`, `mac_len=4`. -/
def mkAEADCall (key data mac : List Nat) : AEADCall :=
  { key := key
    nonce := mac.reverse ++ [data.length + 3] ++ [0x16, 0x1a, 0x18] ++ data.take 1
    aad := [0x11]
    ciphertext := (data.drop 1).take (data.length - 5)
    tag := data.drop (data.length - 4)
    macLen := 4 }

/-- `ATCBluetoothDeviceData._decrypt_atc` (lines 230-270).  `if not
self.bindkey` is Python truthiness, so it fires for both `None` and an empty
key (the second `if`'s repeated `not self.bindkey` disjunct is then
redundant); `(len(data)+3).to_bytes(1, "little")` raises `OverflowError`
above 255; the `except ValueError` branch (lines 255-260) returns `None`
WITHOUT touching `bindkey_verified`, while the defensive `is None` branch
(lines 261-267) clears it. -/
def decrypt_atc (oracle : AEADCall → CcmOutcome) (st : DeviceState)
    (data mac : List Nat) : DeviceState × PStep DecryptResult :=
  match st.bindkey with
  | none =>
    ({ st with bindkey_verified := false }, PStep.normal DecryptResult.missingKey)
  | some key =>
    if key = [] then
      ({ st with bindkey_verified := false }, PStep.normal DecryptResult.missingKey)
    else if key.length ≠ 16 then
      ({ st with bindkey_verified := false },
        PStep.normal DecryptResult.invalidKeyLength)
    else if data.length + 3 ≥ 256 then
      (st, PStep.raised PyErr.overflowError)
    else
      match oracle (mkAEADCall key data mac) with
      | CcmOutcome.valueError => (st, PStep.normal DecryptResult.decryptionFailed)
      | CcmOutcome.retNone =>
        ({ st with bindkey_verified := false },
          PStep.normal DecryptResult.decryptionFailed)
      | CcmOutcome.ok pt =>
        ({ st with bindkey_verified := true },
          PStep.normal (DecryptResult.ok pt))

/-- The measurement kinds `_parse_atc` reports via
`update_predefined_sensor`; values are exact rationals (Python computes
them with `/`, true division). -/
structure Measurements where
  temperature : Option ℚ
  humidity : Option ℚ
  voltage : Option ℚ
  battery : Option ℚ
  deriving DecidableEq, Repr

/-- Structured reason for a `return False` from `_parse_atc` (the spec's
error taxonomy; each constructor is in bijection with one `return False`
site, plus the three `_decrypt_atc` failure labels threaded through). -/
inductive FailReason where
  | unrecognizedFormat
  | identifierMismatch
  | platformUnsupported
  | missingKey
  | invalidKeyLength
  | decryptionFailed
  deriving DecidableEq, Repr

/-- The label each failing `DecryptResult` carries into the parse outcome. -/
def failOfDecrypt : DecryptResult → FailReason
  | DecryptResult.missingKey => FailReason.missingKey
  | DecryptResult.invalidKeyLength => FailReason.invalidKeyLength
  | _ => FailReason.decryptionFailed

/-- Outcome of one `_parse_atc` call: `success` carries the reported
measurements, the firmware label (`set_device_sw_version`) and the display
title (`set_title` / `set_device_name`); `failure` is a `return False`. -/
inductive ParseOutcome where
  | success (meas : Measurements) (firmware : List Char) (title : List Char)
  | failure (r : FailReason)
  deriving DecidableEq, Repr

/-- The display title `f"{name} ({identifier})"` of lines 224-226. -/
def mkTitle (name address : List Char) : List Char :=
  name ++ (" (").data ++ address ++ (")").data

/-- Byte `i` of a byte string (always in range where used: each use is
guarded by the branch's length test, mirroring `struct.unpack`'s fixed
format sizes). -/
def byteAt (data : List Nat) (i : Nat) : Nat := data.getD i 0

/-- Unsigned little-endian 16-bit field (`struct` format `<H`). -/
def uint16LE (lo hi : Nat) : Nat := lo + 256 * hi

/-- Unsigned big-endian 16-bit field (`struct` format `>H`). -/
def uint16BE (hi lo : Nat) : Nat := 256 * hi + lo

/-- Two's-complement reading of a 16-bit value (`struct` formats `<h`/`>h`). -/
def int16OfUInt (v : Nat) : Int :=
  if v < 32768 then (v : Int) else (v : Int) - 65536

/-- Signed little-endian 16-bit field (`struct` format `<h`). -/
def sint16LE (lo hi : Nat) : Int := int16OfUInt (uint16LE lo hi)

/-- Signed big-endian 16-bit field (`struct` format `>h`). -/
def sint16BE (hi lo : Nat) : Int := int16OfUInt (uint16BE hi lo)

/-- Firmware label of the unencrypted pvvx/custom format. -/
def fwPvvx : List Char := ("ATC (pvvx)").data

/-- Firmware label of the unencrypted atc1441 format. -/
def fwAtc1441 : List Char := ("ATC (atc1441)").data

/-- Firmware label of the encrypted pvvx/custom format. -/
def fwPvvxEnc : List Char := ("ATC (pvvx encrypted)").data

/-- Firmware label of the encrypted atc1441 format. -/
def fwAtc1441Enc : List Char := ("ATC (atc1441 encrypted)").data

/-- `ATCBluetoothDeviceData._parse_atc` (lines 79-228), with
`sys.platform == "darwin"` abstracted as the boolean `darwin` and the AES-CCM
primitive as `oracle`.  Branches in source order: length 15 (pvvx plaintext),
13 (atc1441 plaintext), 11 (pvvx encrypted), 8 (atc1441 encrypted), otherwise
`return False`.  In the encrypted branches the source sets `self.mac_known`
and `self.encrypted` BEFORE decrypting, and the plaintext unpack
(`unpack("<hHBB", ...)` at line 176, indexing at lines 210-213) raises if the
plaintext has the wrong size. -/
def parse_atc (darwin : Bool) (oracle : AEADCall → CcmOutcome)
    (st : DeviceState) (address name : List Char) (data : List Nat) :
    DeviceState × PStep ParseOutcome :=
  match computeSourceMac address with
  | PStep.raised e => (st, PStep.raised e)
  | PStep.normal source_mac =>
    if data.length = 15 then
      let atc_mac := (data.take 6).reverse
      if darwin = false ∧ atc_mac ≠ source_mac then
        (st, PStep.normal (ParseOutcome.failure FailReason.identifierMismatch))
      else
        (st, PStep.normal (ParseOutcome.success
          { temperature := some ((sint16LE (byteAt data 6) (byteAt data 7) : ℚ) / 100)
            humidity := some ((uint16LE (byteAt data 8) (byteAt data 9) : ℚ) / 100)
            voltage := some ((uint16LE (byteAt data 10) (byteAt data 11) : ℚ) / 1000)
            battery := some ((byteAt data 12 : ℚ)) }
          fwPvvx (mkTitle name address)))
    else if data.length = 13 then
      let atc_mac := data.take 6
      if darwin = false ∧ atc_mac ≠ source_mac then
        (st, PStep.normal (ParseOutcome.failure FailReason.identifierMismatch))
      else
        (st, PStep.normal (ParseOutcome.success
          { temperature := some ((sint16BE (byteAt data 6) (byteAt data 7) : ℚ) / 10)
            humidity := some ((byteAt data 8 : ℚ))
            voltage := some ((uint16BE (byteAt data 10) (byteAt data 11) : ℚ) / 1000)
            battery := some ((byteAt data 9 : ℚ)) }
          fwAtc1441 (mkTitle name address)))
    else if data.length = 11 then
      if darwin then
        (st, PStep.normal (ParseOutcome.failure FailReason.platformUnsupported))
      else
        let st₁ := { st with mac_known := true, encrypted := some true }
        match decrypt_atc oracle st₁ data source_mac with
        | (st₂, PStep.raised e) => (st₂, PStep.raised e)
        | (st₂, PStep.normal (DecryptResult.ok pt)) =>
          if pt.length ≠ 6 then (st₂, PStep.raised PyErr.structError)
          else
            (st₂, PStep.normal (ParseOutcome.success
              { temperature := some ((sint16LE (byteAt pt 0) (byteAt pt 1) : ℚ) / 100)
                humidity := some ((uint16LE (byteAt pt 2) (byteAt pt 3) : ℚ) / 100)
                voltage := none
                battery := some ((byteAt pt 4 : ℚ)) }
              fwPvvxEnc (mkTitle name address)))
        | (st₂, PStep.normal r) =>
          (st₂, PStep.normal (ParseOutcome.failure (failOfDecrypt r)))
    else if data.length = 8 then
      if darwin then
        (st, PStep.normal (ParseOutcome.failure FailReason.platformUnsupported))
      else
        let st₁ := { st with mac_known := true, encrypted := some true }
        match decrypt_atc oracle st₁ data source_mac with
        | (st₂, PStep.raised e) => (st₂, PStep.raised e)
        | (st₂, PStep.normal (DecryptResult.ok pt)) =>
          if pt.length < 3 then (st₂, PStep.raised PyErr.indexError)
          else
            let bat := Nat.land (byteAt pt 2) 0x7F
            (st₂, PStep.normal (ParseOutcome.success
              { temperature := some ((byteAt pt 0 : ℚ) / 2 - 40)
                humidity := some ((byteAt pt 1 : ℚ) / 2)
                voltage := none
                battery := some ((if bat > 100 then 100 else bat : ℕ) : ℚ) }
              fwAtc1441Enc (mkTitle name address)))
        | (st₂, PStep.normal r) =>
          (st₂, PStep.normal (ParseOutcome.failure (failOfDecrypt r)))
    else
      (st, PStep.normal (ParseOutcome.failure FailReason.unrecognizedFormat))

/-- The loop body of `_start_update` (lines 75-77): parse each service-data
payload in turn, recording `last_service_info` after each successful parse;
a raised exception propagates out of the loop. -/
def start_update_go (darwin : Bool) (oracle : AEADCall → CcmOutcome)
    (si : ServiceInfo) : DeviceState → List (List Nat) → DeviceState × PStep Unit
  | st, [] => (st, PStep.normal ())
  | st, d :: rest =>
    match parse_atc darwin oracle st si.address si.name d with
    | (st', PStep.raised e) => (st', PStep.raised e)
    | (st', PStep.normal (ParseOutcome.success _ _ _)) =>
      start_update_go darwin oracle si
        { st' with last_service_info := some si } rest
    | (st', PStep.normal (ParseOutcome.failure _)) =>
      start_update_go darwin oracle si st' rest

/-- `ATCBluetoothDeviceData._start_update`: process one advertisement. -/
def start_update (darwin : Bool) (oracle : AEADCall → CcmOutcome)
    (st : DeviceState) (si : ServiceInfo) : DeviceState × PStep Unit :=
  start_update_go darwin oracle si st si.service_data

/-- Session states reachable on a fixed platform with a fixed AEAD primitive:
the freshly constructed object, any state left behind by processing an
advertisement (including one that raised part-way), and any state produced by
the caller replacing the key attribute. -/
inductive Reachable (darwin : Bool) (oracle : AEADCall → CcmOutcome) :
    DeviceState → Prop where
  | init (bindkey : Option (List Nat)) :
      Reachable darwin oracle (initState darwin bindkey)
  | step (st st' : DeviceState) (si : ServiceInfo) (r : PStep Unit)
      (hst : Reachable darwin oracle st)
      (hrun : start_update darwin oracle st si = (st', r)) :
      Reachable darwin oracle st'
  | rekey (st : DeviceState) (k : Option (List Nat))
      (hst : Reachable darwin oracle st) :
      Reachable darwin oracle { st with bindkey := k }

/-- The address used by the repository's test vectors. -/
def addrGood : List Char := ("A4:C1:38:8D:18:B2").data

/-- The same address with dash separators, a form the spec admits and
`short_address` in the same file normalises. -/
def addrDash : List Char := ("A4-C1-38-8D-18-B2").data

/-- The byte form of `addrGood`. -/
def smacGood : List Nat := [0xA4, 0xC1, 0x38, 0x8D, 0x18, 0xB2]

/-- The local name used by the repository's test vectors. -/
def nameT : List Char := ("ATC_8D18B2").data

/-- An AEAD primitive for payloads the session never authenticates
(every call fails tag verification). -/
def oracleFail : AEADCall → CcmOutcome := fun _ => CcmOutcome.valueError

/-- A well-formed (16-byte) key. -/
def keyZ : List Nat := List.replicate 16 0

/-- Test vector: atc1441 plaintext advertisement (13 bytes). -/
def dataB13 : List Nat :=
  [0xA4, 0xC1, 0x38, 0x8D, 0x18, 0xB2, 0x01, 0x12, 0x2F, 0x64, 0x0C, 0xA0, 0x25]

/-- Test vector: pvvx plaintext advertisement (15 bytes). -/
def dataA15 : List Nat :=
  [0xB2, 0x18, 0x8D, 0x38, 0xC1, 0xA4, 0x59, 0x0A, 0xAD, 0x13, 0xB6, 0x09,
    0x1F, 0x1E, 0x05]

/-- An 8-byte encrypted-format advertisement whose tag the oracle below
accepts. -/
def dataOk8 : List Nat := [1, 2, 3, 4, 5, 6, 7, 8]

/-- The same advertisement with the last tag byte flipped, so that tag
verification fails. -/
def dataBad8 : List Nat := [1, 2, 3, 4, 5, 6, 7, 9]

/-- A deterministic AEAD primitive that authenticates exactly the frames
carrying the tag of `dataOk8` (decrypting them to a 3-byte plaintext) and
raises `ValueError` on every other frame. -/
def oracleSel : AEADCall → CcmOutcome := fun c =>
  if c.tag = [5, 6, 7, 8] then CcmOutcome.ok [133, 94, 100]
  else CcmOutcome.valueError

/-- A session constructed with the key `keyZ` on a non-darwin platform. -/
def stK : DeviceState := initState false (some keyZ)

/-- The session state after `stK` successfully parses `dataOk8`. -/
def stAfterOk : DeviceState :=
  (parse_atc false oracleSel stK addrGood nameT dataOk8).1

/-- An 11-byte encrypted-format advertisement. -/
def dataE11 : List Nat := [17, 1, 2, 3, 4, 5, 6, 7, 8, 9, 10]

/-- An AEAD primitive that accepts everything, returning a fixed 6-byte
plaintext (the size the 11-byte format unpacks). -/
def oracleOk6 : AEADCall → CcmOutcome := fun _ =>
  CcmOutcome.ok [89, 10, 173, 19, 31, 30]

/-- A payload length outside `{15, 13, 11, 8}`. -/
def data5 : List Nat := [1, 2, 3, 4, 5]

/-- An AEAD primitive that accepts everything, returning a fixed 3-byte
plaintext whose battery byte has the high bit and all seven low bits set. -/
def oraclePt3 : AEADCall → CcmOutcome := fun _ =>
  CcmOutcome.ok [133, 94, 255]

/-- `_decrypt_atc` never touches the session fields other than
`bindkey_verified`. -/
lemma decrypt_atc_fields (oracle : AEADCall → CcmOutcome) (st : DeviceState)
    (data mac : List Nat) :
    ((decrypt_atc oracle st data mac).1).bindkey = st.bindkey ∧
    ((decrypt_atc oracle st data mac).1).is_encrypted = st.is_encrypted ∧
    ((decrypt_atc oracle st data mac).1).mac_known = st.mac_known ∧
    ((decrypt_atc oracle st data mac).1).pending = st.pending ∧
    ((decrypt_atc oracle st data mac).1).last_service_info =
      st.last_service_info ∧
    ((decrypt_atc oracle st data mac).1).encrypted = st.encrypted := by
  obtain ⟨bk, ie, mk, bv, pd, ls, en⟩ := st
  unfold decrypt_atc
  rcases bk with _ | key
  · exact ⟨rfl, rfl, rfl, rfl, rfl, rfl⟩
  · dsimp only
    split_ifs
    · exact ⟨rfl, rfl, rfl, rfl, rfl, rfl⟩
    · exact ⟨rfl, rfl, rfl, rfl, rfl, rfl⟩
    · exact ⟨rfl, rfl, rfl, rfl, rfl, rfl⟩
    · rcases oracle (mkAEADCall key data mac) with _ | _ | pt <;>
        exact ⟨rfl, rfl, rfl, rfl, rfl, rfl⟩

/-- When `_decrypt_atc` fails, `bindkey_verified` is either untouched (the
`except ValueError` path) or cleared. -/
lemma decrypt_atc_verified_of_failure (oracle : AEADCall → CcmOutcome)
    (st : DeviceState) (data mac : List Nat) (r : DecryptResult)
    (h : (decrypt_atc oracle st data mac).2 = PStep.normal r)
    (hok : ∀ pt, r ≠ DecryptResult.ok pt) :
    ((decrypt_atc oracle st data mac).1).bindkey_verified =
      st.bindkey_verified ∨
    ((decrypt_atc oracle st data mac).1).bindkey_verified = false := by
  obtain ⟨bk, ie, mk, bv, pd, ls, en⟩ := st
  unfold decrypt_atc at h ⊢
  rcases bk with _ | key
  · exact Or.inr rfl
  · dsimp only at h ⊢
    split_ifs at h ⊢
    · exact Or.inr rfl
    · exact Or.inr rfl
    · rcases ho : oracle (mkAEADCall key data mac) with _ | _ | pt <;>
        rw [ho] at h
      · exact Or.inl rfl
      · exact Or.inr rfl
      · exact absurd (PStep.normal.inj h).symm (hok pt)

/-- The state `_decrypt_atc` leaves behind is its input state with (at most)
`bindkey_verified` replaced. -/
lemma decrypt_branch_state (oracle : AEADCall → CcmOutcome)
    (st st₂ : DeviceState) (data smac : List Nat) (p : PStep DecryptResult)
    (hd : decrypt_atc oracle
        { st with mac_known := true, encrypted := some true } data smac =
      (st₂, p)) :
    st₂ = { st with
            mac_known := true
            encrypted := some true
            bindkey_verified := st₂.bindkey_verified } := by
  have hf := decrypt_atc_fields oracle
    { st with mac_known := true, encrypted := some true } data smac
  rw [hd] at hf
  dsimp only at hf
  obtain ⟨bk₂, ie₂, mk₂, bv₂, pd₂, ls₂, en₂⟩ := st₂
  simp only [DeviceState.mk.injEq]
  exact ⟨hf.1, hf.2.1, hf.2.2.1, trivial, hf.2.2.2.1, hf.2.2.2.2.1,
    hf.2.2.2.2.2⟩

/-- On a failing `_decrypt_atc` call the state keeps all fields except (at
most) a cleared `bindkey_verified`. -/
lemma decrypt_branch_failure (oracle : AEADCall → CcmOutcome)
    (st st₂ : DeviceState) (data smac : List Nat) (r₂ : DecryptResult)
    (hd : decrypt_atc oracle
        { st with mac_known := true, encrypted := some true } data smac =
      (st₂, PStep.normal r₂))
    (hok : ∀ pt, r₂ ≠ DecryptResult.ok pt) :
    st₂ = { st with
            mac_known := true
            encrypted := some true
            bindkey_verified := st₂.bindkey_verified } ∧
    (st₂.bindkey_verified = st.bindkey_verified ∨
      st₂.bindkey_verified = false) := by
  have hv := decrypt_atc_verified_of_failure oracle
    { st with mac_known := true, encrypted := some true } data smac r₂
    (by rw [hd]) hok
  rw [hd] at hv
  exact ⟨decrypt_branch_state oracle st st₂ data smac _ hd, hv⟩

/-- Structure of the state left behind by any `_parse_atc` call: either the
input state, or the input state with `mac_known` set, the `encrypted`
attribute set, and some value of `bindkey_verified` (the encrypted
branches). -/
lemma parse_atc_state (darwin : Bool) (oracle : AEADCall → CcmOutcome)
    (st : DeviceState) (address name : List Char) (data : List Nat) :
    (parse_atc darwin oracle st address name data).1 = st ∨
    ∃ b, (parse_atc darwin oracle st address name data).1 =
      { st with
          mac_known := true
          encrypted := some true
          bindkey_verified := b } := by
  rcases hp : parse_atc darwin oracle st address name data with ⟨st', res⟩
  dsimp only
  unfold parse_atc at hp
  rcases hs : computeSourceMac address with e | smac <;> rw [hs] at hp
  · exact Or.inl (Prod.mk.inj hp).1.symm
  · dsimp only at hp
    split_ifs at hp
    all_goals try exact Or.inl (Prod.mk.inj hp).1.symm
    · rcases hd : decrypt_atc oracle
          { st with mac_known := true, encrypted := some true } data smac
        with ⟨st₂, r₂⟩
      rw [hd] at hp
      have hsh := decrypt_branch_state oracle st st₂ data smac _ hd
      rcases r₂ with e | r₂
      · exact Or.inr ⟨st₂.bindkey_verified,
          by rw [← (Prod.mk.inj hp).1]; exact hsh⟩
      · rcases r₂ with _ | _ | _ | pt
        · exact Or.inr ⟨st₂.bindkey_verified,
            by rw [← (Prod.mk.inj hp).1]; exact hsh⟩
        · exact Or.inr ⟨st₂.bindkey_verified,
            by rw [← (Prod.mk.inj hp).1]; exact hsh⟩
        · exact Or.inr ⟨st₂.bindkey_verified,
            by rw [← (Prod.mk.inj hp).1]; exact hsh⟩
        · dsimp only at hp
          split_ifs at hp <;>
            exact Or.inr ⟨st₂.bindkey_verified,
              by rw [← (Prod.mk.inj hp).1]; exact hsh⟩
    · rcases hd : decrypt_atc oracle
          { st with mac_known := true, encrypted := some true } data smac
        with ⟨st₂, r₂⟩
      rw [hd] at hp
      have hsh := decrypt_branch_state oracle st st₂ data smac _ hd
      rcases r₂ with e | r₂
      · exact Or.inr ⟨st₂.bindkey_verified,
          by rw [← (Prod.mk.inj hp).1]; exact hsh⟩
      · rcases r₂ with _ | _ | _ | pt
        · exact Or.inr ⟨st₂.bindkey_verified,
            by rw [← (Prod.mk.inj hp).1]; exact hsh⟩
        · exact Or.inr ⟨st₂.bindkey_verified,
            by rw [← (Prod.mk.inj hp).1]; exact hsh⟩
        · exact Or.inr ⟨st₂.bindkey_verified,
            by rw [← (Prod.mk.inj hp).1]; exact hsh⟩
        · dsimp only at hp
          split_ifs at hp <;>
            exact Or.inr ⟨st₂.bindkey_verified,
              by rw [← (Prod.mk.inj hp).1]; exact hsh⟩

/-- On a `_parse_atc` call that fails in-band (returns `False`), the state is
either untouched or (encrypted branches) touched only in `mac_known`, the
`encrypted` attribute, and a kept-or-cleared `bindkey_verified`. -/
lemma parse_atc_failure_state (darwin : Bool) (oracle : AEADCall → CcmOutcome)
    (st : DeviceState) (address name : List Char) (data : List Nat)
    (r : FailReason)
    (hfail : (parse_atc darwin oracle st address name data).2 =
      PStep.normal (ParseOutcome.failure r)) :
    (parse_atc darwin oracle st address name data).1 = st ∨
    ∃ b, ((parse_atc darwin oracle st address name data).1 =
      { st with
          mac_known := true
          encrypted := some true
          bindkey_verified := b }) ∧
      (b = st.bindkey_verified ∨ b = false) ∧ darwin = false := by
  rcases hp : parse_atc darwin oracle st address name data with ⟨st', res⟩
  rw [hp] at hfail
  dsimp only at hfail
  subst hfail
  dsimp only
  unfold parse_atc at hp
  rcases hs : computeSourceMac address with e | smac <;> rw [hs] at hp
  · simp at hp
  · dsimp only at hp
    split_ifs at hp with h15 hmis1 h13 hmis2 h11 hdar1 h8 hdar2
    all_goals try exact Or.inl (Prod.mk.inj hp).1.symm
    · rcases hd : decrypt_atc oracle
          { st with mac_known := true, encrypted := some true } data smac
        with ⟨st₂, r₂⟩
      rw [hd] at hp
      rcases r₂ with e | r₂
      · simp at hp
      · rcases r₂ with _ | _ | _ | pt
        · obtain ⟨he, hb⟩ := decrypt_branch_failure oracle st st₂ data smac _
            hd (fun pt hh => nomatch hh)
          exact Or.inr ⟨st₂.bindkey_verified,
            by rw [← (Prod.mk.inj hp).1]; exact he, hb,
            Bool.eq_false_iff.mpr hdar1⟩
        · obtain ⟨he, hb⟩ := decrypt_branch_failure oracle st st₂ data smac _
            hd (fun pt hh => nomatch hh)
          exact Or.inr ⟨st₂.bindkey_verified,
            by rw [← (Prod.mk.inj hp).1]; exact he, hb,
            Bool.eq_false_iff.mpr hdar1⟩
        · obtain ⟨he, hb⟩ := decrypt_branch_failure oracle st st₂ data smac _
            hd (fun pt hh => nomatch hh)
          exact Or.inr ⟨st₂.bindkey_verified,
            by rw [← (Prod.mk.inj hp).1]; exact he, hb,
            Bool.eq_false_iff.mpr hdar1⟩
        · dsimp only at hp
          split_ifs at hp <;> simp at hp
    · rcases hd : decrypt_atc oracle
          { st with mac_known := true, encrypted := some true } data smac
        with ⟨st₂, r₂⟩
      rw [hd] at hp
      rcases r₂ with e | r₂
      · simp at hp
      · rcases r₂ with _ | _ | _ | pt
        · obtain ⟨he, hb⟩ := decrypt_branch_failure oracle st st₂ data smac _
            hd (fun pt hh => nomatch hh)
          exact Or.inr ⟨st₂.bindkey_verified,
            by rw [← (Prod.mk.inj hp).1]; exact he, hb,
            Bool.eq_false_iff.mpr hdar2⟩
        · obtain ⟨he, hb⟩ := decrypt_branch_failure oracle st st₂ data smac _
            hd (fun pt hh => nomatch hh)
          exact Or.inr ⟨st₂.bindkey_verified,
            by rw [← (Prod.mk.inj hp).1]; exact he, hb,
            Bool.eq_false_iff.mpr hdar2⟩
        · obtain ⟨he, hb⟩ := decrypt_branch_failure oracle st st₂ data smac _
            hd (fun pt hh => nomatch hh)
          exact Or.inr ⟨st₂.bindkey_verified,
            by rw [← (Prod.mk.inj hp).1]; exact he, hb,
            Bool.eq_false_iff.mpr hdar2⟩
        · dsimp only at hp
          split_ifs at hp <;> simp at hp

/-- `_parse_atc` never turns `mac_known` off. -/
lemma parse_atc_mac_known (darwin : Bool) (oracle : AEADCall → CcmOutcome)
    (st : DeviceState) (address name : List Char) (data : List Nat)
    (h : st.mac_known = true) :
    ((parse_atc darwin oracle st address name data).1).mac_known = true := by
  rcases parse_atc_state darwin oracle st address name data with h1 | ⟨b, h1⟩
  · rw [h1]; exact h
  · rw [h1]

/-- The `_start_update` loop never turns `mac_known` off. -/
lemma start_update_go_mac_known (darwin : Bool)
    (oracle : AEADCall → CcmOutcome) (si : ServiceInfo) :
    ∀ (ds : List (List Nat)) (st : DeviceState), st.mac_known = true →
      ((start_update_go darwin oracle si st ds).1).mac_known = true := by
  intro ds
  induction ds with
  | nil => intro st h; exact h
  | cons d rest ih =>
    intro st h
    unfold start_update_go
    rcases hp : parse_atc darwin oracle st si.address si.name d with ⟨st', res⟩
    have h' : st'.mac_known = true := by
      have hm := parse_atc_mac_known darwin oracle st si.address si.name d h
      rw [hp] at hm
      exact hm
    rcases res with e | out
    · exact h'
    · rcases out with ⟨m, fw, t⟩ | rr
      · exact ih { st' with last_service_info := some si } h'
      · exact ih st' h'

/-- On a platform with a trusted transport identifier (`darwin = false`),
every reachable session has `mac_known = true`: it starts true in `__init__`
and no code path lowers it. -/
lemma reachable_mac_known (darwin : Bool) (oracle : AEADCall → CcmOutcome)
    (st : DeviceState) (h : Reachable darwin oracle st)
    (hd : darwin = false) : st.mac_known = true := by
  induction h with
  | init bk => subst hd; rfl
  | step st st' si r hst hrun ih =>
    have hm := start_update_go_mac_known darwin oracle si si.service_data st ih
    unfold start_update at hrun
    rw [hrun] at hm
    exact hm
  | rekey st k hst ih => exact ih

/-- Claim C2: for every advertisement whose decode fails (any failure
reason), the only `DecoderSession` field that may change is
`bindkey_verified` being cleared; `mac_known`, `is_encrypted`, `pending`,
`last_service_info` and `bindkey` are unchanged by the failing call, for any
reachable session. -/
theorem parse_failure_preserves_session (darwin : Bool)
    (oracle : AEADCall → CcmOutcome) (st : DeviceState)
    (address name : List Char) (data : List Nat) (r : FailReason)
    (hst : Reachable darwin oracle st)
    (hfail : (parse_atc darwin oracle st address name data).2 =
      PStep.normal (ParseOutcome.failure r)) :
    ((parse_atc darwin oracle st address name data).1).mac_known =
      st.mac_known ∧
    ((parse_atc darwin oracle st address name data).1).is_encrypted =
      st.is_encrypted ∧
    ((parse_atc darwin oracle st address name data).1).pending = st.pending ∧
    ((parse_atc darwin oracle st address name data).1).last_service_info =
      st.last_service_info ∧
    ((parse_atc darwin oracle st address name data).1).bindkey = st.bindkey ∧
    (((parse_atc darwin oracle st address name data).1).bindkey_verified =
        st.bindkey_verified ∨
      ((parse_atc darwin oracle st address name data).1).bindkey_verified =
        false) := by
  rcases parse_atc_failure_state darwin oracle st address name data r hfail
    with h1 | ⟨b, h1, hb, hdw⟩
  · rw [h1]
    exact ⟨rfl, rfl, rfl, rfl, rfl, Or.inl rfl⟩
  · have hmk := reachable_mac_known darwin oracle st hst hdw
    rw [h1]
    exact ⟨hmk.symm, rfl, rfl, rfl, rfl, hb⟩

/-- Witness for C2 at a concrete failing advertisement (unrecognized length
5) against a freshly constructed keyless session. -/
theorem parse_failure_preserves_session_witness :
    ((parse_atc false oracleFail (initState false none) addrGood nameT
        data5).1).mac_known = (initState false none).mac_known ∧
    ((parse_atc false oracleFail (initState false none) addrGood nameT
        data5).1).is_encrypted = (initState false none).is_encrypted ∧
    ((parse_atc false oracleFail (initState false none) addrGood nameT
        data5).1).pending = (initState false none).pending ∧
    ((parse_atc false oracleFail (initState false none) addrGood nameT
        data5).1).last_service_info =
      (initState false none).last_service_info ∧
    ((parse_atc false oracleFail (initState false none) addrGood nameT
        data5).1).bindkey = (initState false none).bindkey ∧
    (((parse_atc false oracleFail (initState false none) addrGood nameT
        data5).1).bindkey_verified =
          (initState false none).bindkey_verified ∨
      ((parse_atc false oracleFail (initState false none) addrGood nameT
        data5).1).bindkey_verified = false) :=
  parse_failure_preserves_session false oracleFail (initState false none)
    addrGood nameT data5 FailReason.unrecognizedFormat
    (Reachable.init none) (by decide)

/-- Claim C1 (refuting evaluation): a session whose key has authenticated
one advertisement keeps `bindkey_verified = true` even after a subsequent
advertisement fails tag verification (`decrypt_and_verify` raises
`ValueError`): the failing decrypt reports `DecryptionFailed` but the
`except ValueError` branch never clears the flag. -/
theorem tag_failure_keeps_bindkey_verified :
    stAfterOk.bindkey_verified = true ∧
    (parse_atc false oracleSel stAfterOk addrGood nameT dataBad8).2 =
      PStep.normal (ParseOutcome.failure FailReason.decryptionFailed) ∧
    ((parse_atc false oracleSel stAfterOk addrGood nameT
      dataBad8).1).bindkey_verified = true := by
  refine ⟨?_, ?_, ?_⟩ <;> decide

/-- Claim C3 (refuting evaluation): successfully processing an
encrypted-format (length 11) payload on a supported platform leaves
`is_encrypted` at `false`; the code instead sets the separate, undeclared
attribute `encrypted`. -/
theorem encrypted_payload_leaves_is_encrypted_false :
    ((parse_atc false oracleOk6 stK addrGood nameT dataE11).1).is_encrypted =
      false ∧
    ((parse_atc false oracleOk6 stK addrGood nameT dataE11).1).encrypted =
      some true ∧
    ∃ m t, (parse_atc false oracleOk6 stK addrGood nameT dataE11).2 =
      PStep.normal (ParseOutcome.success m fwPvvxEnc t) := by
  refine ⟨by decide, by decide, ⟨_, _, rfl⟩⟩

/-- Claim C4 (refuting evaluation): a 17-character dash-delimited source
address slips past the sanitizing guard (`len != 17 and s[2] != ":"`) and
reaches `bytes.fromhex` with the dashes still present, which raises an
unhandled `ValueError` instead of producing an in-band failure. -/
theorem dash_delimited_address_raises :
    computeSourceMac addrDash = PStep.raised PyErr.valueError ∧
    (parse_atc false oracleFail (initState false none) addrDash nameT
      dataA15).2 = PStep.raised PyErr.valueError := by
  refine ⟨?_, ?_⟩ <;> decide

/-- Claim C7 (refuting evaluation): a payload of unrecognized length 5 with
a dash-delimited address makes the decode raise `ValueError` (the address
conversion crash) rather than fail in-band with `UnrecognizedFormat`. -/
theorem unrecognized_length_raises_on_dash_address :
    data5.length ≠ 15 ∧ data5.length ≠ 13 ∧ data5.length ≠ 11 ∧
    data5.length ≠ 8 ∧
    (parse_atc false oracleFail (initState false none) addrDash nameT
      data5).2 = PStep.raised PyErr.valueError ∧
    (parse_atc false oracleFail (initState false none) addrDash nameT
      data5).2 ≠
      PStep.normal (ParseOutcome.failure FailReason.unrecognizedFormat) := by
  refine ⟨?_, ?_, ?_, ?_, ?_, ?_⟩ <;> decide

/-- Claim C8: `_decrypt_atc` with an unusable key — absent (`None`), empty,
or of any length other than 16 bytes — produces no plaintext, clears
`bindkey_verified`, reports `MissingKey` (absent or empty key) or
`InvalidKeyLength` (wrong length), and leaves every other session field
intact, returning normally so the session stays usable. -/
theorem decrypt_atc_unusable_key (oracle : AEADCall → CcmOutcome)
    (st : DeviceState) (data mac : List Nat)
    (h : ∀ k, st.bindkey = some k → k.length ≠ 16) :
    decrypt_atc oracle st data mac =
      ({ st with bindkey_verified := false },
        PStep.normal (if st.bindkey = none ∨ st.bindkey = some [] then
          DecryptResult.missingKey else DecryptResult.invalidKeyLength)) := by
  unfold decrypt_atc
  rcases hb : st.bindkey with _ | key
  · simp [hb]
  · have hne16 := h key hb
    rcases eq_or_ne key [] with hk | hk
    · subst hk
      simp [hb]
    · simp [hb, hk, hne16]

/-- Witness for C8 at a concrete 3-byte key. -/
theorem decrypt_atc_unusable_key_witness :
    decrypt_atc oracleFail (initState false (some [1, 2, 3])) dataOk8
      smacGood =
      ({ initState false (some [1, 2, 3]) with bindkey_verified := false },
        PStep.normal DecryptResult.invalidKeyLength) := by
  have h := decrypt_atc_unusable_key oracleFail
    (initState false (some [1, 2, 3])) dataOk8 smacGood
    (by intro k hk; simp only [initState, Option.some.injEq] at hk
        subst hk; decide)
  rw [h]
  decide

/-- Claim C5: with a configured 16-byte key, `_decrypt_atc` consults the
AEAD primitive at exactly one call whose nonce is the 11-byte concatenation
of the source identifier reversed (6 bytes), the byte `len(payload) + 3`,
the fixed service-class tag `16 1A 18`, and payload byte 0; whose associated
data is the single byte `0x11`; whose ciphertext is payload bytes
`1 .. len-5`; and whose tag is the last 4 payload bytes with a 4-byte tag
length — and the call's outcome alone determines the result. -/
theorem decrypt_atc_aead_call_spec (oracle : AEADCall → CcmOutcome)
    (st : DeviceState) (data mac key : List Nat)
    (hkey : st.bindkey = some key) (hk16 : key.length = 16)
    (hlen : 5 ≤ data.length) (hsmall : data.length + 3 < 256)
    (hmac : mac.length = 6) :
    (decrypt_atc oracle st data mac =
      match oracle
        { key := key
          nonce := mac.reverse ++ [data.length + 3] ++ [0x16, 0x1a, 0x18] ++
            data.take 1
          aad := [0x11]
          ciphertext := (data.drop 1).take (data.length - 5)
          tag := data.drop (data.length - 4)
          macLen := 4 } with
      | CcmOutcome.valueError =>
        (st, PStep.normal DecryptResult.decryptionFailed)
      | CcmOutcome.retNone =>
        ({ st with bindkey_verified := false },
          PStep.normal DecryptResult.decryptionFailed)
      | CcmOutcome.ok pt =>
        ({ st with bindkey_verified := true },
          PStep.normal (DecryptResult.ok pt))) ∧
    (mkAEADCall key data mac).nonce.length = 11 ∧
    (mkAEADCall key data mac).ciphertext.length = data.length - 5 ∧
    (mkAEADCall key data mac).tag.length = 4 := by
  have hne : key ≠ [] := by
    intro hk
    rw [hk] at hk16
    simp at hk16
  refine ⟨?_, ?_, ?_, ?_⟩
  · unfold decrypt_atc
    rw [hkey]
    dsimp only
    rw [if_neg hne, if_neg (by omega), if_neg (by omega)]
    rfl
  · simp [mkAEADCall, hmac]
    omega
  · simp [mkAEADCall]
    omega
  · simp [mkAEADCall]
    omega

/-- Witness for C5 at a concrete key, payload and identifier. -/
theorem decrypt_atc_aead_call_spec_witness :
    (decrypt_atc oracleFail stK dataOk8 smacGood =
      match oracleFail
        { key := keyZ
          nonce := smacGood.reverse ++ [dataOk8.length + 3] ++
            [0x16, 0x1a, 0x18] ++ dataOk8.take 1
          aad := [0x11]
          ciphertext := (dataOk8.drop 1).take (dataOk8.length - 5)
          tag := dataOk8.drop (dataOk8.length - 4)
          macLen := 4 } with
      | CcmOutcome.valueError =>
        (stK, PStep.normal DecryptResult.decryptionFailed)
      | CcmOutcome.retNone =>
        ({ stK with bindkey_verified := false },
          PStep.normal DecryptResult.decryptionFailed)
      | CcmOutcome.ok pt =>
        ({ stK with bindkey_verified := true },
          PStep.normal (DecryptResult.ok pt))) ∧
    (mkAEADCall keyZ dataOk8 smacGood).nonce.length = 11 ∧
    (mkAEADCall keyZ dataOk8 smacGood).ciphertext.length =
      dataOk8.length - 5 ∧
    (mkAEADCall keyZ dataOk8 smacGood).tag.length = 4 :=
  decrypt_atc_aead_call_spec oracleFail stK dataOk8 smacGood keyZ rfl
    (by decide) (by decide) (by decide) (by decide)

/-- Claim C10: decoding the 13-byte atc1441 plaintext test vector with its
matching colon-delimited address yields exactly temperature 27.4 °C,
humidity 47 %, battery 100 %, voltage 3.232 V (big-endian fields,
temperature ×0.1, voltage ×0.001, embedded identifier in natural order). -/
theorem parse_atc1441_plaintext_vector :
    parse_atc false oracleFail (initState false none) addrGood nameT
      dataB13 =
      (initState false none,
        PStep.normal (ParseOutcome.success
          { temperature := some (27.4 : ℚ)
            humidity := some 47
            voltage := some (3.232 : ℚ)
            battery := some 100 }
          fwAtc1441 (mkTitle nameT addrGood))) := by
  have h : parse_atc false oracleFail (initState false none) addrGood nameT
      dataB13 =
      (initState false none,
        PStep.normal (ParseOutcome.success
          { temperature := some ((sint16BE 1 18 : ℚ) / 10)
            humidity := some ((47 : ℕ) : ℚ)
            voltage := some ((uint16BE 12 160 : ℚ) / 1000)
            battery := some ((100 : ℕ) : ℚ) }
          fwAtc1441 (mkTitle nameT addrGood))) := by rfl
  rw [h]
  norm_num [sint16BE, uint16BE, int16OfUInt]

/-- Claim C6: for every 15-byte payload on a platform with a trusted
transport identifier, a reversed embedded identifier differing from the
transport address fails the decode in-band with `IdentifierMismatch` and no
state change; otherwise the decode succeeds reporting temperature = signed
LE16 at bytes 6-7 ×0.01 °C, humidity = unsigned LE16 at bytes 8-9 ×0.01 %,
voltage = unsigned LE16 at bytes 10-11 ×0.001 V, battery = byte 12 %. -/
theorem parse_pvvx_plaintext_spec (oracle : AEADCall → CcmOutcome)
    (st : DeviceState) (address name : List Char) (data smac : List Nat)
    (haddr : computeSourceMac address = PStep.normal smac)
    (hlen : data.length = 15) :
    if (data.take 6).reverse ≠ smac then
      parse_atc false oracle st address name data =
        (st, PStep.normal (ParseOutcome.failure
          FailReason.identifierMismatch))
    else
      parse_atc false oracle st address name data =
        (st, PStep.normal (ParseOutcome.success
          { temperature :=
              some ((sint16LE (byteAt data 6) (byteAt data 7) : ℚ) / 100)
            humidity :=
              some ((uint16LE (byteAt data 8) (byteAt data 9) : ℚ) / 100)
            voltage :=
              some ((uint16LE (byteAt data 10) (byteAt data 11) : ℚ) / 1000)
            battery := some ((byteAt data 12 : ℚ)) }
          fwPvvx (mkTitle name address))) := by
  by_cases hm : (data.take 6).reverse = smac
  · rw [if_neg (fun hh => hh hm)]
    unfold parse_atc
    rw [haddr]
    dsimp only
    rw [if_pos hlen,
      if_neg (fun hc : false = false ∧ (data.take 6).reverse ≠ smac =>
        hc.2 hm)]
  · rw [if_pos hm]
    unfold parse_atc
    rw [haddr]
    dsimp only
    rw [if_pos hlen,
      if_pos (⟨rfl, hm⟩ : false = false ∧ (data.take 6).reverse ≠ smac)]

/-- Witness for C6: the 15-byte pvvx end-to-end test vector, reproducing
temperature 26.49 °C, humidity 50.37 %, voltage 2.486 V, battery 31 %. -/
theorem parse_pvvx_plaintext_spec_witness :
    parse_atc false oracleFail (initState false none) addrGood nameT
      dataA15 =
      (initState false none,
        PStep.normal (ParseOutcome.success
          { temperature := some (26.49 : ℚ)
            humidity := some (50.37 : ℚ)
            voltage := some (2.486 : ℚ)
            battery := some 31 }
          fwPvvx (mkTitle nameT addrGood))) := by
  have h := parse_pvvx_plaintext_spec oracleFail (initState false none)
    addrGood nameT dataA15 smacGood (by decide) (by decide)
  rw [if_neg (by decide)] at h
  rw [h]
  norm_num [show byteAt dataA15 6 = 0x59 from rfl,
    show byteAt dataA15 7 = 0x0A from rfl,
    show byteAt dataA15 8 = 0xAD from rfl,
    show byteAt dataA15 9 = 0x13 from rfl,
    show byteAt dataA15 10 = 0xB6 from rfl,
    show byteAt dataA15 11 = 0x09 from rfl,
    show byteAt dataA15 12 = 0x1F from rfl,
    sint16LE, uint16LE, int16OfUInt]

/-- Claim C9: when the 8-byte encrypted atc1441 format decrypts successfully
to a 3-byte plaintext, the reported temperature is `byte0/2 − 40` °C, the
humidity is `byte1/2` %, and the battery is the low 7 bits of byte 2 clamped
above at 100. -/
theorem parse_atc1441_encrypted_spec (oracle : AEADCall → CcmOutcome)
    (st : DeviceState) (address name : List Char)
    (data smac key pt : List Nat)
    (haddr : computeSourceMac address = PStep.normal smac)
    (hlen : data.length = 8)
    (hkey : st.bindkey = some key) (hk16 : key.length = 16)
    (horacle : oracle (mkAEADCall key data smac) = CcmOutcome.ok pt)
    (hpt : pt.length = 3) :
    parse_atc false oracle st address name data =
      ({ st with
          mac_known := true
          encrypted := some true
          bindkey_verified := true },
        PStep.normal (ParseOutcome.success
          { temperature := some ((byteAt pt 0 : ℚ) / 2 - 40)
            humidity := some ((byteAt pt 1 : ℚ) / 2)
            voltage := none
            battery :=
              some ((min (Nat.land (byteAt pt 2) 0x7F) 100 : ℕ) : ℚ) }
          fwAtc1441Enc (mkTitle name address))) := by
  have hne : key ≠ [] := by
    intro hk
    rw [hk] at hk16
    simp at hk16
  have hd : decrypt_atc oracle
      { st with mac_known := true, encrypted := some true } data smac =
      ({ st with
          mac_known := true
          encrypted := some true
          bindkey_verified := true },
        PStep.normal (DecryptResult.ok pt)) := by
    unfold decrypt_atc
    dsimp only
    rw [hkey]
    dsimp only
    rw [if_neg hne, if_neg (by omega), if_neg (by omega), horacle]
  unfold parse_atc
  rw [haddr]
  dsimp only
  rw [if_neg (by omega), if_neg (by omega), if_neg (by omega), if_pos hlen,
    if_neg Bool.false_ne_true, hd]
  dsimp only
  rw [if_neg (by omega)]
  have hbat : (if Nat.land (byteAt pt 2) 0x7F > 100 then 100
      else Nat.land (byteAt pt 2) 0x7F) =
      min (Nat.land (byteAt pt 2) 0x7F) 100 := by
    rcases le_or_lt (Nat.land (byteAt pt 2) 0x7F) 100 with hle | hlt
    · rw [if_neg (by omega), Nat.min_eq_left hle]
    · rw [if_pos hlt, Nat.min_eq_right (by omega)]
  rw [hbat]

/-- Witness for C9: a plaintext whose battery byte has all seven low bits
set (raw 127) reports battery 100, never 127, alongside temperature
133/2 − 40 = 26.5 °C and humidity 94/2 = 47 %. -/
theorem parse_atc1441_encrypted_spec_witness :
    Nat.land 255 0x7F = 127 ∧
    parse_atc false oraclePt3 stK addrGood nameT dataOk8 =
      ({ stK with
          mac_known := true
          encrypted := some true
          bindkey_verified := true },
        PStep.normal (ParseOutcome.success
          { temperature := some (26.5 : ℚ)
            humidity := some 47
            voltage := none
            battery := some 100 }
          fwAtc1441Enc (mkTitle nameT addrGood))) := by
  refine ⟨by decide, ?_⟩
  have h := parse_atc1441_encrypted_spec oraclePt3 stK addrGood nameT
    dataOk8 smacGood keyZ [133, 94, 255] (by decide) (by decide) rfl
    (by decide) rfl (by decide)
  rw [h]
  norm_num [show byteAt [133, 94, 255] 0 = 133 from rfl,
    show byteAt [133, 94, 255] 1 = 94 from rfl,
    show Nat.land (byteAt [133, 94, 255] 2) 0x7F = 127 from rfl]
